import Mathlib

/-!
Verification of the fstest repository (a fork of the gotest.tools v3 fs
package): temporary file/directory fixtures, a directory-manifest builder,
and a manifest comparator.

Shallow embedding conventions:
- src/file.go (NewFile, NewDir, DirFromPath, cleanPrefix, File.Remove,
  Dir.Remove) is embedded directly from the source.
- The manifest engine (PathOp application, ManifestFromDir, newResource,
  the comparator) belongs to the same Go package but its source file is not
  part of the given tree; those definitions are modelled from the spec
  (sections 3, 4.1 to 4.4 and 8) and from the in-package tests, and each such
  definition says so in its doc comment.
- Go machine integers are Nat (all values involved are small and
  non-negative; no overflow can occur), os.FileMode is a Nat holding
  permission bits plus the type bits ModeDir and ModeSymlink, file content
  streams are the String they would yield when drained, the real filesystem
  subtree under a fixture root is an explicit FSNode tree, and the flat
  namespace of existing paths used by Remove is a list of path strings.
- Fallible Go code (assert.Nil-checked errors) returns Except String.
-/

namespace Fstest

/-- Operating system family, standing for runtime.GOOS: the code only ever
branches on whether GOOS is "windows". -/
inductive OS where
  | posix
  | windows
deriving DecidableEq

/-- Ambient process state read by the Go code: runtime.GOOS, os.Geteuid()
and the TEST_NOCLEANUP environment variable. -/
structure GoEnv where
  goos : OS
  euid : Nat
  testNoCleanup : Bool

/-- Go os.IsPathSeparator: on POSIX only the slash is a separator, on
Windows both the slash and the backslash are. -/
def isPathSeparator (goos : OS) (c : Char) : Bool :=
  c = '/' || (goos = OS.windows && c = '\\')

/-- Go strings.Replace with a one-character pattern and replacement and
count -1: every occurrence of c in s becomes r. -/
def replaceChar (s : String) (c r : Char) : String :=
  String.mk (s.data.map (fun x => if x = c then r else x))

/-- Embeds cleanPrefix from src/file.go: on Windows the OS path separator
(backslash) is first replaced by a dash, then on every OS the slash is
replaced by a dash. -/
def cleanPrefix (goos : OS) (pfx : String) : String :=
  replaceChar
    (match goos with
     | OS.windows => replaceChar pfx '\\' '-'
     | OS.posix => pfx)
    '/' '-'

/-- The ModeDir type bit of Go os.FileMode (1 shifted left 31). -/
def modeDir : Nat := 2 ^ 31

/-- The ModeSymlink type bit of Go os.FileMode (1 shifted left 27). -/
def modeSymlink : Nat := 2 ^ 27

/-- Modelled from the spec (4.1) and src/manifest_test.go lines 14-21: the
default permission bits of a newly created file, per OS family (0644 on
POSIX, 0666 on Windows). The Go constant lives in the per-OS default file
of the package, which is not part of the given tree. -/
def defaultFileMode : OS → Nat
  | OS.posix => 0o644
  | OS.windows => 0o666

/-- Modelled from the spec (4.1) and src/manifest_test.go lines 14-21: the
default permission bits of a newly created directory, per OS family (0755
on POSIX, 0777 on Windows). -/
def defaultDirMode : OS → Nat
  | OS.posix => 0o755
  | OS.windows => 0o777

/-- Modelled from the spec (4.1): the mode of the temporary root directory
created by os.MkdirTemp (0700 on POSIX, 0777 on Windows), with the ModeDir
type bit, as referenced symbolically by src/manifest_test.go line 40. -/
def defaultRootDirMode (goos : OS) : Nat :=
  (match goos with
   | OS.posix => 0o700
   | OS.windows => 0o777) + modeDir

/-- Modelled from the spec (4.1): the fixed synthetic mode given to every
symlink entry of a Manifest, regardless of the on-disk symlink permission
bits; it carries the ModeSymlink type bit. -/
def defaultSymlinkMode (goos : OS) : Nat :=
  (match goos with
   | OS.posix => 0o777
   | OS.windows => 0o666) + modeSymlink

/-- Modelled from the spec (1, Windows permission quirks) and
src/manifest_test.go lines 14-21 (a file created with mode 0600 reads back
as 0666 on Windows): the permission bits that a chmod to mode m leaves on
disk. On POSIX the nine permission bits of m are applied as given; on
Windows only the owner-write bit matters, yielding 0666 (writable) or 0444
(read-only). -/
def chmodPerm (goos : OS) (m : Nat) : Nat :=
  match goos with
  | OS.posix => m % 0o1000
  | OS.windows => if m / 0o200 % 2 = 1 then 0o666 else 0o444

/-- A real filesystem subtree: each node carries the full Go os.FileMode
(permission bits plus type bits), the numeric owner and group (0 meaning
never explicitly chowned), and its kind-specific payload. Directory entries
are an association list from child name to child node, unique keys. -/
inductive FSNode where
  | file (mode uid gid : Nat) (content : String)
  | dir (mode uid gid : Nat) (entries : List (String × FSNode))
  | symlink (mode uid gid : Nat) (target : String)

/-- Modelled from the spec (4.3): the Path Operations the claims exercise.
Sub-operations of withFile and withDir configure the created child. -/
inductive PathOp where
  | withFile (name content : String) (subOps : List PathOp)
  | withDir (name : String) (subOps : List PathOp)
  | withSymlink (name target : String)
  | withMode (m : Nat)
  | asUser (uid gid : Nat)

/-- Creating a child that already exists overwrites it in place; otherwise
the child is appended, mirroring a real directory's flat namespace. -/
def insertEntry (name : String) (node : FSNode) :
    List (String × FSNode) → List (String × FSNode)
  | [] => [(name, node)]
  | (n, e) :: rest =>
      if n = name then (name, node) :: rest
      else (n, e) :: insertEntry name node rest

/-- Go filepath.Join for the two-component cases used here: root and a
separator-free child name. -/
def joinPath (a b : String) : String := a ++ "/" ++ b

mutual
/-- Modelled from the spec (4.3): one Path Operation applied at absolute
path p to the filesystem node at p.
- withFile creates the named child as a file with the OS default file mode
  and the given content, then applies the sub-operations to that file.
- withDir creates the named child as a directory with the OS default
  directory mode, then applies the sub-operations inside it.
- withSymlink creates the named child as a symlink whose stored target is
  the given target resolved against the creating root, that is
  filepath.Join of p and the target (spec section 8).
- withMode chmods the current node, keeping its type bits and applying the
  per-OS permission quirks of chmodPerm.
- asUser chowns the current node to the given ids when the process is
  privileged (euid 0) and otherwise fails with the OS permission error.
Creating a child under anything but a directory is an OS error. -/
def applyOp (env : GoEnv) (p : String) (op : PathOp) (node : FSNode) :
    Except String FSNode :=
  match op, node with
  | PathOp.withFile name content subOps, FSNode.dir m u g entries =>
      (match applyOps env (joinPath p name) subOps
          (FSNode.file (defaultFileMode env.goos) 0 0 content) with
       | Except.error e => Except.error e
       | Except.ok child =>
           Except.ok (FSNode.dir m u g (insertEntry name child entries)))
  | PathOp.withFile _ _ _, _ => Except.error "not a directory"
  | PathOp.withDir name subOps, FSNode.dir m u g entries =>
      (match applyOps env (joinPath p name) subOps
          (FSNode.dir (defaultDirMode env.goos + modeDir) 0 0 []) with
       | Except.error e => Except.error e
       | Except.ok child =>
           Except.ok (FSNode.dir m u g (insertEntry name child entries)))
  | PathOp.withDir _ _, _ => Except.error "not a directory"
  | PathOp.withSymlink name target, FSNode.dir m u g entries =>
      Except.ok (FSNode.dir m u g
        (insertEntry name
          (FSNode.symlink (defaultSymlinkMode env.goos) 0 0
            (joinPath p target))
          entries))
  | PathOp.withSymlink _ _, _ => Except.error "not a directory"
  | PathOp.withMode mNew, FSNode.file old u g c =>
      Except.ok (FSNode.file (old - old % 0o1000 + chmodPerm env.goos mNew) u g c)
  | PathOp.withMode mNew, FSNode.dir old u g entries =>
      Except.ok (FSNode.dir (old - old % 0o1000 + chmodPerm env.goos mNew) u g entries)
  | PathOp.withMode mNew, FSNode.symlink old u g t =>
      Except.ok (FSNode.symlink (old - old % 0o1000 + chmodPerm env.goos mNew) u g t)
  | PathOp.asUser uid gid, n =>
      if env.euid = 0 then
        match n with
        | FSNode.file m _ _ c => Except.ok (FSNode.file m uid gid c)
        | FSNode.dir m _ _ entries => Except.ok (FSNode.dir m uid gid entries)
        | FSNode.symlink m _ _ t => Except.ok (FSNode.symlink m uid gid t)
      else Except.error "operation not permitted"

/-- Modelled from the spec (4.3, error policy): applyPathOps applies the
operations in order and the first failure short-circuits, leaving the
remaining operations unapplied. -/
def applyOps (env : GoEnv) (p : String) (ops : List PathOp) (node : FSNode) :
    Except String FSNode :=
  match ops with
  | [] => Except.ok node
  | op :: rest =>
      match applyOp env p op node with
      | Except.error e => Except.error e
      | Except.ok node' => applyOps env p rest node'
end

/-- Metadata attached to every manifest entry, as in the Go resource
struct: mode, uid, gid; zero uid and gid mean owner not asserted.
Modelled from the spec (4.1) and src/manifest_test.go line 27. -/
structure resource where
  mode : Nat
  uid : Nat
  gid : Nat
deriving DecidableEq

/-- Modelled from the spec (4.1): newResource(mode) is a resource with the
given mode and no owner set. -/
def newResource (mode : Nat) : resource := ⟨mode, 0, 0⟩

/-- One manifest entry: file with content, directory with named items and
a glob-pattern table (modelled by the list of registered pattern strings),
or symlink with a stored target string. Modelled from the spec (3) and the
expected manifest literal of src/manifest_test.go lines 37-66. -/
inductive dirEntry where
  | file (res : resource) (content : String)
  | directory (res : resource) (items : List (String × dirEntry))
      (filepathGlobs : List String)
  | symlink (res : resource) (target : String)

/-- A Manifest is a root entry, always a directory. -/
structure Manifest where
  root : dirEntry

mutual
/-- Modelled from the spec (4.2): the walk of one real filesystem node into
a manifest entry. A file keeps its actual mode and its content; a directory
keeps its actual mode, recurses into its children by real name and gets an
empty glob table; a symlink gets the synthetic default symlink mode
(ignoring its real permission bits) and its stored target string exactly as
the platform link read returns it, not re-resolved. Ownership ids are taken
from the entry as they stand on disk in all three cases. -/
def dirEntryFromNode (goos : OS) : FSNode → dirEntry
  | FSNode.file m u g c => dirEntry.file ⟨m, u, g⟩ c
  | FSNode.dir m u g entries =>
      dirEntry.directory ⟨m, u, g⟩ (itemsFromEntries goos entries) []
  | FSNode.symlink _ u g t =>
      dirEntry.symlink ⟨defaultSymlinkMode goos, u, g⟩ t

/-- Recursion of dirEntryFromNode over a directory's child list. -/
def itemsFromEntries (goos : OS) :
    List (String × FSNode) → List (String × dirEntry)
  | [] => []
  | (n, e) :: rest => (n, dirEntryFromNode goos e) :: itemsFromEntries goos rest
end

/-- Modelled from the spec (4.2): ManifestFromDir walks the tree rooted at
the given real path; the root must be a directory, and any walk failure is
fatal. The FSNode argument stands for what the filesystem holds at the
walked path. -/
def ManifestFromDir (goos : OS) (node : FSNode) : Except String Manifest :=
  match node with
  | FSNode.dir _ _ _ _ => Except.ok ⟨dirEntryFromNode goos node⟩
  | _ => Except.error "not a directory"

/-- Modelled from the spec (4.4): resources are equal iff mode, uid and gid
all are; an unset owner field only matches another unset one, with no
special casing. -/
def resourceEqual (a b : resource) : Bool :=
  a.mode == b.mode && a.uid == b.uid && a.gid == b.gid

/-- Association-list lookup over a directory's items. -/
def lookupEntry (n : String) : List (String × dirEntry) → Option dirEntry
  | [] => Option.none
  | (k, e) :: rest => if k = n then Option.some e else lookupEntry n rest

mutual
/-- Modelled from the spec (4.4): deep structural equality of entries.
Files are equal iff their resources are equal and their drained contents
are byte-identical; directories iff their resources are equal and they hold
the same keys (order irrelevant; with unique keys, equal item counts plus
every left key matching on the right is key-set equality) with recursively
equal children; symlinks iff their resources are equal and their stored
target strings are equal exactly, with no path resolution. -/
def entryEqual : dirEntry → dirEntry → Bool
  | dirEntry.file ra ca, dirEntry.file rb cb => resourceEqual ra rb && ca == cb
  | dirEntry.directory ra ia _, dirEntry.directory rb ib _ =>
      resourceEqual ra rb && ia.length == ib.length && itemsSubEqual ia ib
  | dirEntry.symlink ra ta, dirEntry.symlink rb tb =>
      resourceEqual ra rb && ta == tb
  | _, _ => false

/-- Every named item on the left has an item of the same name on the right
and the two entries are recursively equal. -/
def itemsSubEqual : List (String × dirEntry) → List (String × dirEntry) → Bool
  | [], _ => true
  | (n, e) :: rest, b =>
      (match lookupEntry n b with
       | Option.some e' => entryEqual e e'
       | Option.none => false) && itemsSubEqual rest b
end

/-- Deep equality of two manifests, root against root. -/
def manifestEqual (a b : Manifest) : Bool := entryEqual a.root b.root

/-- Modelled from the spec (4.4): Equal builds a Manifest from the real
path (here, from the tree the filesystem holds there) and deeply compares
it with the expected Manifest; a walk failure is a fatal test failure, not
an equality. -/
def Equal (goos : OS) (node : FSNode) (expected : Manifest) : Bool :=
  match ManifestFromDir goos node with
  | Except.ok m => manifestEqual m expected
  | Except.error _ => false

mutual
/-- Both ownership ids of every node of the tree are the unset value 0. -/
def nodeOwnersUnset : FSNode → Bool
  | FSNode.file _ u g _ => u == 0 && g == 0
  | FSNode.dir _ u g entries => u == 0 && g == 0 && entriesOwnersUnset entries
  | FSNode.symlink _ u g _ => u == 0 && g == 0

/-- Recursion of nodeOwnersUnset over a directory's child list. -/
def entriesOwnersUnset : List (String × FSNode) → Bool
  | [] => true
  | (_, e) :: rest => nodeOwnersUnset e && entriesOwnersUnset rest
end

mutual
/-- Both ownership ids of every entry of the manifest tree are 0. -/
def entryOwnersUnset : dirEntry → Bool
  | dirEntry.file r _ => r.uid == 0 && r.gid == 0
  | dirEntry.directory r items _ =>
      r.uid == 0 && r.gid == 0 && itemsOwnersUnset items
  | dirEntry.symlink r _ => r.uid == 0 && r.gid == 0

/-- Recursion of entryOwnersUnset over a directory's items. -/
def itemsOwnersUnset : List (String × dirEntry) → Bool
  | [] => true
  | (_, e) :: rest => entryOwnersUnset e && itemsOwnersUnset rest
end

mutual
/-- The glob-pattern table of every directory entry of the tree is empty. -/
def entryGlobsEmpty : dirEntry → Bool
  | dirEntry.file _ _ => true
  | dirEntry.directory _ items globs => globs.isEmpty && itemsGlobsEmpty items
  | dirEntry.symlink _ _ => true

/-- Recursion of entryGlobsEmpty over a directory's items. -/
def itemsGlobsEmpty : List (String × dirEntry) → Bool
  | [] => true
  | (_, e) :: rest => entryGlobsEmpty e && itemsGlobsEmpty rest
end

mutual
/-- The operation contains no asUser anywhere, sub-operations included. -/
def noUserOp : PathOp → Bool
  | PathOp.withFile _ _ subOps => noUserOps subOps
  | PathOp.withDir _ subOps => noUserOps subOps
  | PathOp.withSymlink _ _ => true
  | PathOp.withMode _ => true
  | PathOp.asUser _ _ => false

/-- Recursion of noUserOp over an operation list. -/
def noUserOps : List PathOp → Bool
  | [] => true
  | op :: rest => noUserOp op && noUserOps rest
end

/-- A temporary file fixture, as in src/file.go: it only holds its path. -/
structure File where
  path : String

/-- A temporary directory fixture, as in src/file.go. -/
structure Dir where
  path : String

/-- Go os.CreateTemp with the directory argument empty: the system
temporary directory is used, the pattern (which must contain no path
separator) is extended with a fresh numeric suffix. The suffix models the
random component the OS picks. -/
def osCreateTemp (goos : OS) (pattern : String) (suffix : Nat) :
    Except String String :=
  if pattern.data.any (fun c => isPathSeparator goos c) then
    Except.error "pattern contains path separator"
  else Except.ok ("/tmp/" ++ pattern ++ toString suffix)

/-- Go os.MkdirTemp, same naming discipline as osCreateTemp. -/
def osMkdirTemp (goos : OS) (pattern : String) (suffix : Nat) :
    Except String String :=
  osCreateTemp goos pattern suffix

/-- Embeds NewFile from src/file.go. It creates a temporary file named
after cleanPrefix of the given prefix plus a dash, registers the remove
hook with t.Cleanup unconditionally (the function body never consults
TEST_NOCLEANUP, its own doc comment notwithstanding), applies the
operations to the file and returns it. The Bool in the result records
whether the remove-on-scope-end hook was registered, and the FSNode is the
state of the created file after the operations. -/
def NewFile (env : GoEnv) (pfx : String) (suffix : Nat) (ops : List PathOp) :
    Except String (File × Bool × FSNode) :=
  match osCreateTemp env.goos ( cleanPrefix env.goos pfx ++ "-") suffix with
  | Except.error e => Except.error e
  | Except.ok path =>
      match applyOps env path ops
          (FSNode.file (defaultFileMode env.goos) 0 0 "") with
      | Except.error e => Except.error e
      | Except.ok node => Except.ok (⟨path⟩, true, node)

/-- Embeds NewDir from src/file.go. It creates a temporary directory named
after cleanPrefix of the given prefix plus a dash, registers the remove
hook with t.Cleanup unconditionally (TEST_NOCLEANUP is never consulted),
applies the operations inside it and returns it, with the same result
convention as NewFile. -/
def NewDir (env : GoEnv) (pfx : String) (suffix : Nat) (ops : List PathOp) :
    Except String (Dir × Bool × FSNode) :=
  match osMkdirTemp env.goos ( cleanPrefix env.goos pfx ++ "-") suffix with
  | Except.error e => Except.error e
  | Except.ok path =>
      match applyOps env path ops
          (FSNode.dir (defaultRootDirMode env.goos) 0 0 []) with
      | Except.error e => Except.error e
      | Except.ok node => Except.ok (⟨path⟩, true, node)

/-- Embeds DirFromPath from src/file.go: the Dir wraps the given path
unchanged, the operations are applied to the existing directory (whose
current state is the FSNode argument), and no cleanup hook is registered. -/
def DirFromPath (env : GoEnv) (path : String) (ops : List PathOp)
    (node : FSNode) : Except String (Dir × Bool × FSNode) :=
  match applyOps env path ops node with
  | Except.error e => Except.error e
  | Except.ok node' => Except.ok (⟨path⟩, false, node')

/-- Go os.Remove over the flat namespace of existing paths: deletes the
path when present, reports the OS not-exist error when absent. -/
def osRemove (disk : List String) (p : String) : List String × Option String :=
  if p ∈ disk then (disk.filter (fun q => q ≠ p), Option.none)
  else (disk, Option.some "no such file or directory")

/-- The path q lies at or below root in the path hierarchy. -/
def isUnder (root q : String) : Bool :=
  q == root || List.isPrefixOf (root ++ "/").data q.data

/-- Go os.RemoveAll: deletes the path and everything below it and reports
no error even when the path is already absent. -/
def osRemoveAll (disk : List String) (p : String) :
    List String × Option String :=
  (disk.filter (fun q => !(isUnder p q)), Option.none)

/-- Embeds File.Remove from src/file.go: the os.Remove error is discarded
(the source assigns it to the blank identifier), so Remove has no error
channel and only the disk state changes. -/
def File.Remove (f : File) (disk : List String) : List String :=
  (osRemove disk f.path).1

/-- Embeds Dir.Remove from src/file.go: os.RemoveAll with the error
discarded. -/
def Dir.Remove (d : Dir) (disk : List String) : List String :=
  (osRemoveAll disk d.path).1

/-- The operations of scenario A, as in src/manifest_test.go lines 40-44
without the ownership-bearing fourth file: file j with content "content j"
and mode 0600, subdirectory s holding file k with content "content k" and
the default mode, and symlink f pointing at j. -/
def scenarioAOps : List PathOp :=
  [PathOp.withFile "j" "content j" [PathOp.withMode 0o600],
   PathOp.withDir "s" [PathOp.withFile "k" "content k" []],
   PathOp.withSymlink "f" "j"]

/-- The mode file j reads back with after its chmod to 0600, per
src/manifest_test.go lines 16-21: 0600 on POSIX, 0666 on Windows. -/
def jFileMode : OS → Nat
  | OS.posix => 0o600
  | OS.windows => 0o666

/-- The mode of subdirectory s, per src/manifest_test.go lines 15-19:
the OS default directory permission bits with the ModeDir type bit. -/
def subDirMode (goos : OS) : Nat := defaultDirMode goos + modeDir

/-- The hand-built expected Manifest of scenario A for a fixture created
at the given root path, as in src/manifest_test.go lines 37-66: j with its
chmod result, s with default mode holding k with default mode, and f a
symlink whose target is the root-resolved absolute path of j. -/
def scenarioAExpected (goos : OS) (root : String) : Manifest :=
  ⟨dirEntry.directory (newResource (defaultRootDirMode goos))
    [("j", dirEntry.file (newResource (jFileMode goos)) "content j"),
     ("s", dirEntry.directory (newResource (subDirMode goos))
        [("k", dirEntry.file (newResource (defaultFileMode goos)) "content k")]
        []),
     ("f", dirEntry.symlink (newResource (defaultSymlinkMode goos))
        (joinPath root "j"))]
    []⟩

theorem applyOps_append_ok (env : GoEnv) (p : String) (a b : List PathOp)
    (node mid : FSNode) (h : applyOps env p a node = Except.ok mid) :
    applyOps env p (a ++ b) node = applyOps env p b mid := by
  induction a generalizing node with
  | nil =>
      simp only [applyOps, Except.ok.injEq] at h
      subst h
      rfl
  | cons op rest ih =>
      simp only [applyOps] at h
      simp only [List.cons_append, applyOps]
      cases hop : applyOp env p op node with
      | error e => rw [hop] at h; exact absurd h (by simp)
      | ok n' =>
          rw [hop] at h
          exact ih n' h

theorem insertEntry_owners (name : String) (node : FSNode)
    (entries : List (String × FSNode))
    (h1 : nodeOwnersUnset node = true) (h2 : entriesOwnersUnset entries = true) :
    entriesOwnersUnset (insertEntry name node entries) = true := by
  induction entries with
  | nil => simp [insertEntry, entriesOwnersUnset, h1]
  | cons hd rest ih =>
      obtain ⟨n, e⟩ := hd
      simp only [entriesOwnersUnset, Bool.and_eq_true] at h2
      by_cases hn : n = name
      · simp [insertEntry, hn, entriesOwnersUnset, h1, h2.2]
      · simp [insertEntry, hn, entriesOwnersUnset, h1, h2.1, ih h2.2]

theorem applyOp_owners (env : GoEnv) (p : String) (op : PathOp) (node : FSNode) :
    ∀ node', noUserOp op = true → nodeOwnersUnset node = true →
      applyOp env p op node = Except.ok node' → nodeOwnersUnset node' = true := by
  refine applyOp.induct env
    (fun p op node => ∀ node', noUserOp op = true → nodeOwnersUnset node = true →
      applyOp env p op node = Except.ok node' → nodeOwnersUnset node' = true)
    (fun p ops node => ∀ node', noUserOps ops = true → nodeOwnersUnset node = true →
      applyOps env p ops node = Except.ok node' → nodeOwnersUnset node' = true)
    ?_ ?_ ?_ ?_ ?_ ?_ ?_ ?_ ?_ ?_ ?_ ?_ ?_ ?_ ?_ ?_ ?_ ?_ p op node
  · -- withFile on a directory, sub-operations fail
    intro p name content subOps m u g entries e herr _ node' _ _ happ
    simp [applyOp, herr] at happ
  · -- withFile on a directory, sub-operations succeed
    intro p name content subOps m u g entries child hok ih node' hop hun happ
    simp only [noUserOp] at hop
    simp only [nodeOwnersUnset, Bool.and_eq_true] at hun
    simp only [applyOp, hok, Except.ok.injEq] at happ
    subst happ
    have hchild : nodeOwnersUnset child = true := by
      refine ih child hop ?_ hok
      simp [nodeOwnersUnset]
    simp only [nodeOwnersUnset, Bool.and_eq_true]
    exact ⟨hun.1, insertEntry_owners _ _ _ hchild hun.2⟩
  · -- withFile on a non-directory
    intro p node name content subOps hnotdir node' _ _ happ
    cases node with
    | dir m u g entries => exact (hnotdir m u g entries rfl).elim
    | file m u g c => simp [applyOp] at happ
    | symlink m u g t => simp [applyOp] at happ
  · -- withDir on a directory, sub-operations fail
    intro p name subOps m u g entries e herr _ node' _ _ happ
    simp [applyOp, herr] at happ
  · -- withDir on a directory, sub-operations succeed
    intro p name subOps m u g entries child hok ih node' hop hun happ
    simp only [noUserOp] at hop
    simp only [nodeOwnersUnset, Bool.and_eq_true] at hun
    simp only [applyOp, hok, Except.ok.injEq] at happ
    subst happ
    have hchild : nodeOwnersUnset child = true := by
      refine ih child hop ?_ hok
      simp [nodeOwnersUnset, entriesOwnersUnset]
    simp only [nodeOwnersUnset, Bool.and_eq_true]
    exact ⟨hun.1, insertEntry_owners _ _ _ hchild hun.2⟩
  · -- withDir on a non-directory
    intro p node name subOps hnotdir node' _ _ happ
    cases node with
    | dir m u g entries => exact (hnotdir m u g entries rfl).elim
    | file m u g c => simp [applyOp] at happ
    | symlink m u g t => simp [applyOp] at happ
  · -- withSymlink on a directory
    intro p name target m u g entries node' _ hun happ
    simp only [nodeOwnersUnset, Bool.and_eq_true] at hun
    simp only [applyOp, Except.ok.injEq] at happ
    subst happ
    simp only [nodeOwnersUnset, Bool.and_eq_true]
    refine ⟨hun.1, insertEntry_owners _ _ _ ?_ hun.2⟩
    simp [nodeOwnersUnset]
  · -- withSymlink on a non-directory
    intro p node name target hnotdir node' _ _ happ
    cases node with
    | dir m u g entries => exact (hnotdir m u g entries rfl).elim
    | file m u g c => simp [applyOp] at happ
    | symlink m u g t => simp [applyOp] at happ
  · -- withMode on a file
    intro p mNew m u g c node' _ hun happ
    simp only [applyOp, Except.ok.injEq] at happ
    subst happ
    simpa [nodeOwnersUnset] using hun
  · -- withMode on a directory
    intro p mNew m u g entries node' _ hun happ
    simp only [applyOp, Except.ok.injEq] at happ
    subst happ
    simpa [nodeOwnersUnset] using hun
  · -- withMode on a symlink
    intro p mNew m u g t node' _ hun happ
    simp only [applyOp, Except.ok.injEq] at happ
    subst happ
    simpa [nodeOwnersUnset] using hun
  · -- asUser on a file, privileged: excluded by noUserOp
    intro p uid gid _ m u g c node' hop _ _
    simp [noUserOp] at hop
  · -- asUser on a directory, privileged
    intro p uid gid _ m u g entries node' hop _ _
    simp [noUserOp] at hop
  · -- asUser on a symlink, privileged
    intro p uid gid _ m u g t node' hop _ _
    simp [noUserOp] at hop
  · -- asUser, unprivileged
    intro p uid gid n _ node' hop _ _
    simp [noUserOp] at hop
  · -- empty operation list
    intro p node node' _ hun happ
    simp only [applyOps, Except.ok.injEq] at happ
    subst happ
    exact hun
  · -- first operation fails
    intro p node op rest e herr _ node' _ _ happ
    simp [applyOps, herr] at happ
  · -- first operation succeeds
    intro p node op rest child hok ih1 ih2 node' hop hun happ
    simp only [noUserOps, Bool.and_eq_true] at hop
    simp only [applyOps, hok] at happ
    exact ih2 node' hop.2 (ih1 child hop.1 hun hok) happ

theorem applyOps_owners (env : GoEnv) (p : String) (ops : List PathOp) :
    ∀ node node', noUserOps ops = true → nodeOwnersUnset node = true →
      applyOps env p ops node = Except.ok node' → nodeOwnersUnset node' = true := by
  induction ops with
  | nil =>
      intro node node' _ hun happ
      simp only [applyOps, Except.ok.injEq] at happ
      subst happ
      exact hun
  | cons op rest ih =>
      intro node node' hops hun happ
      simp only [noUserOps, Bool.and_eq_true] at hops
      simp only [applyOps] at happ
      cases h : applyOp env p op node with
      | error e => rw [h] at happ; exact absurd happ (by simp)
      | ok mid =>
          rw [h] at happ
          exact ih mid node' hops.2 (applyOp_owners env p op node mid hops.1 hun h) happ

theorem dirEntryFromNode_owners (goos : OS) (node : FSNode) :
    nodeOwnersUnset node = true →
      entryOwnersUnset (dirEntryFromNode goos node) = true := by
  refine dirEntryFromNode.induct goos
    (fun node => nodeOwnersUnset node = true →
      entryOwnersUnset (dirEntryFromNode goos node) = true)
    (fun entries => entriesOwnersUnset entries = true →
      itemsOwnersUnset (itemsFromEntries goos entries) = true)
    ?_ ?_ ?_ ?_ ?_ node
  · intro m u g c hun
    simpa [dirEntryFromNode, entryOwnersUnset, nodeOwnersUnset] using hun
  · intro m u g entries ih hun
    simp only [nodeOwnersUnset, Bool.and_eq_true] at hun
    simp only [dirEntryFromNode, entryOwnersUnset, Bool.and_eq_true]
    exact ⟨by simpa using hun.1, ih hun.2⟩
  · intro m u g t hun
    simpa [dirEntryFromNode, entryOwnersUnset, nodeOwnersUnset] using hun
  · intro _
    simp [itemsFromEntries, itemsOwnersUnset]
  · intro n e rest ih1 ih2 hun
    simp only [entriesOwnersUnset, Bool.and_eq_true] at hun
    simp only [itemsFromEntries, itemsOwnersUnset, Bool.and_eq_true]
    exact ⟨ih1 hun.1, ih2 hun.2⟩

theorem dirEntryFromNode_globs (goos : OS) (node : FSNode) :
    entryGlobsEmpty (dirEntryFromNode goos node) = true := by
  refine dirEntryFromNode.induct goos
    (fun node => entryGlobsEmpty (dirEntryFromNode goos node) = true)
    (fun entries => itemsGlobsEmpty (itemsFromEntries goos entries) = true)
    ?_ ?_ ?_ ?_ ?_ node
  · intro m u g c
    simp [dirEntryFromNode, entryGlobsEmpty]
  · intro m u g entries ih
    simp [dirEntryFromNode, entryGlobsEmpty, ih]
  · intro m u g t
    simp [dirEntryFromNode, entryGlobsEmpty]
  · simp [itemsFromEntries, itemsGlobsEmpty]
  · intro n e rest ih1 ih2
    simp [itemsFromEntries, itemsGlobsEmpty, ih1, ih2]

theorem cleanPrefix_data (goos : OS) (pfx : String) :
    ( cleanPrefix goos pfx).data =
      pfx.data.map (fun c => if isPathSeparator goos c then '-' else c) := by
  cases goos with
  | posix =>
      show (replaceChar pfx '/' '-').data = _
      simp only [replaceChar]
      refine List.map_congr_left ?_
      intro c _
      by_cases h : c = '/'
      · simp [h, isPathSeparator]
      · simp [h, isPathSeparator]
  | windows =>
      show (replaceChar (replaceChar pfx '\\' '-') '/' '-').data = _
      simp only [replaceChar, List.map_map]
      refine List.map_congr_left ?_
      intro c _
      by_cases h1 : c = '\\'
      · simp [h1, Function.comp, isPathSeparator]
      · by_cases h2 : c = '/'
        · simp [h1, h2, Function.comp, isPathSeparator]
        · simp [h1, h2, Function.comp, isPathSeparator]

theorem cleanPrefix_no_sep (goos : OS) (pfx : String) :
    (( cleanPrefix goos pfx).data.any (fun c => isPathSeparator goos c)) = false := by
  rw [ cleanPrefix_data, List.any_map]
  rw [List.any_eq_false]
  intro c _
  by_cases h : isPathSeparator goos c = true
  · simp only [Function.comp, h, if_pos rfl]
    cases goos <;> simp [isPathSeparator]
  · simp only [Function.comp]
    rw [if_neg (by simpa using h)]
    simpa using h

theorem osCreateTemp_clean (goos : OS) (pfx : String) (n : Nat) :
    osCreateTemp goos ( cleanPrefix goos pfx ++ "-") n =
      Except.ok ("/tmp/" ++ ( cleanPrefix goos pfx ++ "-") ++ toString n) := by
  simp only [osCreateTemp]
  rw [if_neg]
  simp only [String.data_append, List.any_append, cleanPrefix_no_sep]
  cases goos <;> simp [isPathSeparator]

set_option maxRecDepth 16384 in
/-- C1: building a directory with file j (content "content j", mode 0600),
subdirectory s holding file k (content "content k", default mode) and
symlink f pointing at j, then walking it with ManifestFromDir, yields
exactly the hand-built expected Manifest (same entry tree, OS default
modes, symlink target resolved against the creating root), and the
comparator reports Equal. -/
theorem fstest_c1_scenario_a : ∀ (env : GoEnv) (n : Nat), ∃ d node,
    NewDir env "TestManifestFromDir" n scenarioAOps = Except.ok (d, true, node)
    ∧ ManifestFromDir env.goos node = Except.ok (scenarioAExpected env.goos d.path)
    ∧ Equal env.goos node (scenarioAExpected env.goos d.path) = true := by
  intro env n
  obtain ⟨goos, euid, nc⟩ := env
  cases goos with
  | posix =>
      refine ⟨⟨"/tmp/TestManifestFromDir-" ++ toString n⟩, _, rfl, rfl, ?_⟩
      show manifestEqual
        (scenarioAExpected OS.posix ("/tmp/TestManifestFromDir-" ++ toString n))
        (scenarioAExpected OS.posix ("/tmp/TestManifestFromDir-" ++ toString n)) = true
      simp [manifestEqual, scenarioAExpected, entryEqual, itemsSubEqual,
        lookupEntry, resourceEqual, newResource]
  | windows =>
      refine ⟨⟨"/tmp/TestManifestFromDir-" ++ toString n⟩, _, rfl, rfl, ?_⟩
      show manifestEqual
        (scenarioAExpected OS.windows ("/tmp/TestManifestFromDir-" ++ toString n))
        (scenarioAExpected OS.windows ("/tmp/TestManifestFromDir-" ++ toString n)) = true
      simp [manifestEqual, scenarioAExpected, entryEqual, itemsSubEqual,
        lookupEntry, resourceEqual, newResource]

/-- C2: a symlink created with withSymlink under a root is captured by the
Manifest with target equal to the root-resolved absolute path; symlink
equality in the comparator is exact string equality of targets given equal
resources; and two manifests whose targets differ only in relative versus
absolute spelling of the same link are not Equal, while the identical
absolute spelling is. -/
theorem fstest_c2_symlink_targets :
    (∀ (env : GoEnv) (n : Nat), ∃ d node,
       NewDir env "root" n
         [PathOp.withFile "foo.txt" "foo" [], PathOp.withSymlink "foo.link" "foo.txt"]
         = Except.ok (d, true, node)
       ∧ ManifestFromDir env.goos node = Except.ok
           ⟨dirEntry.directory (newResource (defaultRootDirMode env.goos))
             [("foo.txt", dirEntry.file (newResource (defaultFileMode env.goos)) "foo"),
              ("foo.link", dirEntry.symlink (newResource (defaultSymlinkMode env.goos))
                 (joinPath d.path "foo.txt"))] []⟩)
    ∧ (∀ (r : resource) (ta tb : String),
        entryEqual (dirEntry.symlink r ta) (dirEntry.symlink r tb) = true ↔ ta = tb)
    ∧ Equal OS.posix
        (FSNode.dir (defaultRootDirMode OS.posix) 0 0
          [("j", FSNode.symlink (defaultSymlinkMode OS.posix) 0 0 "/tmp/root-0/j")])
        ⟨dirEntry.directory (newResource (defaultRootDirMode OS.posix))
          [("j", dirEntry.symlink (newResource (defaultSymlinkMode OS.posix))
             "/tmp/root-0/j")] []⟩ = true
    ∧ Equal OS.posix
        (FSNode.dir (defaultRootDirMode OS.posix) 0 0
          [("j", FSNode.symlink (defaultSymlinkMode OS.posix) 0 0 "/tmp/root-0/j")])
        ⟨dirEntry.directory (newResource (defaultRootDirMode OS.posix))
          [("j", dirEntry.symlink (newResource (defaultSymlinkMode OS.posix)) "j")] []⟩
        = false := by
  refine ⟨?_, ?_, rfl, rfl⟩
  · intro env n
    obtain ⟨goos, euid, nc⟩ := env
    cases goos with
    | posix => exact ⟨⟨"/tmp/root-" ++ toString n⟩, _, rfl, rfl⟩
    | windows => exact ⟨⟨"/tmp/root-" ++ toString n⟩, _, rfl, rfl⟩
  · intro r ta tb
    simp [entryEqual, resourceEqual]

/-- C3: default resource modes are OS-dependent and exact (0644 file and
0755 directory on POSIX, 0666 file and 0777 directory on Windows), and the
symlink entries of a walked Manifest always receive the fixed synthetic
default symlink mode, distinct from both file and directory defaults, no
matter what permission bits the on-disk symlink node carries. -/
theorem fstest_c3_default_modes :
    defaultFileMode OS.posix = 0o644 ∧ defaultDirMode OS.posix = 0o755
    ∧ defaultFileMode OS.windows = 0o666 ∧ defaultDirMode OS.windows = 0o777
    ∧ (∀ goos : OS, defaultSymlinkMode goos ≠ defaultFileMode goos
        ∧ defaultSymlinkMode goos ≠ defaultDirMode goos
        ∧ defaultSymlinkMode goos ≠ defaultDirMode goos + modeDir
        ∧ defaultSymlinkMode goos ≠ defaultRootDirMode goos)
    ∧ ∀ (goos : OS) (m u g : Nat) (t : String),
        dirEntryFromNode goos (FSNode.symlink m u g t) =
          dirEntry.symlink ⟨defaultSymlinkMode goos, u, g⟩ t := by
  refine ⟨rfl, rfl, rfl, rfl, ?_, ?_⟩
  · intro goos
    cases goos <;> exact ⟨by decide, by decide, by decide, by decide⟩
  · intro goos m u g t
    rfl

/-- C4: contrary to the claim (and to the doc comments of NewFile and
NewDir in src/file.go), the function bodies never consult TEST_NOCLEANUP;
t.Cleanup is called unconditionally, so even with the variable set the
remove-on-scope-end hook is registered (the Bool in the result is true). -/
theorem fstest_c4_cleanup_always_registered :
    ∀ (goos : OS) (euid : Nat) (pfx : String) (n : Nat),
      NewFile ⟨goos, euid, true⟩ pfx n [] =
        Except.ok (⟨"/tmp/" ++ ( cleanPrefix goos pfx ++ "-") ++ toString n⟩, true,
          FSNode.file (defaultFileMode goos) 0 0 "")
      ∧ NewDir ⟨goos, euid, true⟩ pfx n [] =
        Except.ok (⟨"/tmp/" ++ ( cleanPrefix goos pfx ++ "-") ++ toString n⟩, true,
          FSNode.dir (defaultRootDirMode goos) 0 0 []) := by
  intro goos euid pfx n
  constructor
  · simp [NewFile, osCreateTemp_clean, applyOps]
  · simp [NewDir, osMkdirTemp, osCreateTemp_clean, applyOps]

/-- C5: Remove is idempotent for both fixture kinds: after one call the
fixture path is absent from the set of existing paths, a second call
changes nothing, and neither call surfaces an error (the embedded Remove
discards the underlying OS error exactly as the source assigns it to the
blank identifier). -/
theorem fstest_c5_remove_idempotent : ∀ (f : File) (d : Dir) (disk : List String),
    f.path ∉ f.Remove disk
    ∧ f.Remove (f.Remove disk) = f.Remove disk
    ∧ d.path ∉ d.Remove disk
    ∧ d.Remove (d.Remove disk) = d.Remove disk := by
  intro f d disk
  refine ⟨?_, ?_, ?_, ?_⟩
  · by_cases h : f.path ∈ disk <;> simp [File.Remove, osRemove, h, List.mem_filter]
  · by_cases h : f.path ∈ disk
    · simp [File.Remove, osRemove, h, List.mem_filter]
    · simp [File.Remove, osRemove, h]
  · simp [Dir.Remove, osRemoveAll, List.mem_filter, isUnder]
  · simp [Dir.Remove, osRemoveAll, List.filter_filter]

/-- C6: newResource returns a resource with the given mode and unset
ownership; a tree built by operations containing no asUser keeps every
ownership id unset, and the walker then yields a Manifest whose entries all
have unset ownership; asUser applied with privilege (euid 0) sets exactly
the requested ids, and without privilege it fails with the OS permission
error instead of changing anything. -/
theorem fstest_c6_ownership :
    (∀ m : Nat, newResource m = ⟨m, 0, 0⟩)
    ∧ (∀ (env : GoEnv) (p : String) (ops : List PathOp) (node node' : FSNode),
        noUserOps ops = true → nodeOwnersUnset node = true →
        applyOps env p ops node = Except.ok node' → nodeOwnersUnset node' = true)
    ∧ (∀ (goos : OS) (node : FSNode), nodeOwnersUnset node = true →
        entryOwnersUnset (dirEntryFromNode goos node) = true)
    ∧ (∀ (env : GoEnv) (p : String) (uid gid m u g : Nat) (c : String),
        env.euid = 0 →
        applyOp env p (PathOp.asUser uid gid) (FSNode.file m u g c) =
          Except.ok (FSNode.file m uid gid c))
    ∧ (∀ (env : GoEnv) (p : String) (uid gid : Nat) (node : FSNode),
        env.euid ≠ 0 →
        applyOp env p (PathOp.asUser uid gid) node =
          Except.error "operation not permitted") := by
  refine ⟨fun m => rfl, ?_, ?_, ?_, ?_⟩
  · intro env p ops node node' hops hun happ
    exact applyOps_owners env p ops node node' hops hun happ
  · intro goos node hun
    exact dirEntryFromNode_owners goos node hun
  · intro env p uid gid m u g c h0
    simp [applyOp, h0]
  · intro env p uid gid node hne
    simp [applyOp, hne]

/-- Witness for C6: the preservation, walker, privileged and unprivileged
parts at concrete inputs, with every hypothesis discharged there. -/
theorem fstest_c6_ownership_witness :
    newResource 0o644 = ⟨0o644, 0, 0⟩
    ∧ nodeOwnersUnset (FSNode.file 0o600 0 0 "c") = true
    ∧ entryOwnersUnset (dirEntryFromNode OS.posix (FSNode.file 0o644 0 0 "c")) = true
    ∧ applyOp ⟨OS.posix, 0, false⟩ "/r" (PathOp.asUser 1001 1002)
        (FSNode.file 0o644 0 0 "c") = Except.ok (FSNode.file 0o644 1001 1002 "c")
    ∧ applyOp ⟨OS.posix, 1000, false⟩ "/r" (PathOp.asUser 1001 1002)
        (FSNode.file 0o644 0 0 "c") = Except.error "operation not permitted" :=
  ⟨fstest_c6_ownership.1 0o644,
   fstest_c6_ownership.2.1 ⟨OS.posix, 1000, false⟩ "/r" [PathOp.withMode 0o600]
     (FSNode.file 0o644 0 0 "c") (FSNode.file 0o600 0 0 "c") rfl rfl rfl,
   fstest_c6_ownership.2.2.1 OS.posix (FSNode.file 0o644 0 0 "c") rfl,
   fstest_c6_ownership.2.2.2.1 ⟨OS.posix, 0, false⟩ "/r" 1001 1002 0o644 0 0 "c" rfl,
   fstest_c6_ownership.2.2.2.2 ⟨OS.posix, 1000, false⟩ "/r" 1001 1002
     (FSNode.file 0o644 0 0 "c") (by decide)⟩

/-- C7: the first operation that fails aborts the application of all the
remaining operations at that nesting level, the error is the one the
failing operation produced, and a failing operation list makes the fixture
constructor itself fail with that error. -/
theorem fstest_c7_first_error_aborts :
    (∀ (env : GoEnv) (p : String) (ops1 : List PathOp) (op : PathOp)
       (ops2 : List PathOp) (node node' : FSNode) (e : String),
       applyOps env p ops1 node = Except.ok node' →
       applyOp env p op node' = Except.error e →
       applyOps env p (ops1 ++ op :: ops2) node = Except.error e)
    ∧ (∀ (env : GoEnv) (pfx : String) (n : Nat) (ops : List PathOp)
        (path e : String),
        osMkdirTemp env.goos ( cleanPrefix env.goos pfx ++ "-") n = Except.ok path →
        applyOps env path ops (FSNode.dir (defaultRootDirMode env.goos) 0 0 []) =
          Except.error e →
        NewDir env pfx n ops = Except.error e) := by
  constructor
  · intro env p ops1 op ops2 node node' e h1 h2
    rw [applyOps_append_ok env p ops1 (op :: ops2) node node' h1]
    simp [applyOps, h2]
  · intro env pfx n ops path e h1 h2
    simp [NewDir, h1, h2]

/-- Witness for C7: with no privilege, asUser fails and the later withFile
is never applied; NewDir propagates the same error. -/
theorem fstest_c7_first_error_aborts_witness :
    applyOps ⟨OS.posix, 1000, false⟩ "/r"
      ([] ++ PathOp.asUser 1001 1002 :: [PathOp.withFile "a" "" []])
      (FSNode.dir (defaultRootDirMode OS.posix) 0 0 []) =
        Except.error "operation not permitted"
    ∧ NewDir ⟨OS.posix, 1000, false⟩ "x" 0 [PathOp.asUser 1001 1002] =
        Except.error "operation not permitted" :=
  ⟨fstest_c7_first_error_aborts.1 ⟨OS.posix, 1000, false⟩ "/r" []
     (PathOp.asUser 1001 1002) [PathOp.withFile "a" "" []]
     (FSNode.dir (defaultRootDirMode OS.posix) 0 0 [])
     (FSNode.dir (defaultRootDirMode OS.posix) 0 0 []) "operation not permitted"
     rfl rfl,
   fstest_c7_first_error_aborts.2 ⟨OS.posix, 1000, false⟩ "x" 0
     [PathOp.asUser 1001 1002] "/tmp/x-0" "operation not permitted" rfl rfl⟩

/-- C8: every directory entry of a Manifest produced by the directory
walker carries an empty glob-pattern table, and ManifestFromDir on a
directory returns exactly the walked tree. -/
theorem fstest_c8_walker_globs_empty : ∀ (goos : OS) (node : FSNode),
    entryGlobsEmpty (dirEntryFromNode goos node) = true
    ∧ ∀ (m u g : Nat) (entries : List (String × FSNode)),
        ManifestFromDir goos (FSNode.dir m u g entries) =
          Except.ok ⟨dirEntryFromNode goos (FSNode.dir m u g entries)⟩ :=
  fun goos node => ⟨dirEntryFromNode_globs goos node, fun _ _ _ _ => rfl⟩

/-- C9: cleanPrefix replaces every slash (and on Windows every backslash)
of the prefix by a dash, so the cleaned prefix contains no path separator
and temporary-name creation succeeds for every prefix, the created name
being built from the cleaned prefix. -/
theorem fstest_c9_separators_cleaned : ∀ (goos : OS) (pfx : String),
    ( cleanPrefix goos pfx).data =
      pfx.data.map (fun c => if isPathSeparator goos c then '-' else c)
    ∧ (( cleanPrefix goos pfx).data.any (fun c => isPathSeparator goos c)) = false
    ∧ ∀ (euid : Nat) (nc : Bool) (n : Nat),
        NewFile ⟨goos, euid, nc⟩ pfx n [] =
          Except.ok (⟨"/tmp/" ++ ( cleanPrefix goos pfx ++ "-") ++ toString n⟩, true,
            FSNode.file (defaultFileMode goos) 0 0 "") :=
  fun goos pfx =>
    ⟨ cleanPrefix_data goos pfx, cleanPrefix_no_sep goos pfx,
     fun euid nc n => by simp [NewFile, osCreateTemp_clean, applyOps]⟩

/-- C10: DirFromPath wraps the given path unchanged, applies the
operations to the existing directory, registers no cleanup hook (the Bool
in its result is false, where NewDir yields true), and the returned Dir can
still be removed explicitly: Remove deletes the path and everything below
it. -/
theorem fstest_c10_dir_from_path :
    (∀ (env : GoEnv) (path : String) (ops : List PathOp) (node node' : FSNode),
       applyOps env path ops node = Except.ok node' →
       DirFromPath env path ops node = Except.ok (⟨path⟩, false, node'))
    ∧ (∀ (env : GoEnv) (path : String) (ops : List PathOp) (node : FSNode)
        (e : String),
        applyOps env path ops node = Except.error e →
        DirFromPath env path ops node = Except.error e)
    ∧ (∀ (path : String) (disk : List String), path ∉ Dir.Remove ⟨path⟩ disk)
    ∧ (∀ (path q : String) (disk : List String), isUnder path q = true →
        q ∉ Dir.Remove ⟨path⟩ disk) := by
  refine ⟨?_, ?_, ?_, ?_⟩
  · intro env path ops node node' h
    simp [DirFromPath, h]
  · intro env path ops node e h
    simp [DirFromPath, h]
  · intro path disk
    simp [Dir.Remove, osRemoveAll, List.mem_filter, isUnder]
  · intro path q disk hq
    simp [Dir.Remove, osRemoveAll, List.mem_filter, hq]

/-- Witness for C10: a concrete DirFromPath call on an existing directory,
and removal of a concrete subtree, with every hypothesis discharged. -/
theorem fstest_c10_dir_from_path_witness :
    DirFromPath ⟨OS.posix, 1000, false⟩ "/existing"
      [PathOp.withFile "newfile" "" []]
      (FSNode.dir (defaultRootDirMode OS.posix) 0 0 []) =
        Except.ok (⟨"/existing"⟩, false,
          FSNode.dir (defaultRootDirMode OS.posix) 0 0
            [("newfile", FSNode.file (defaultFileMode OS.posix) 0 0 "")])
    ∧ "/existing/newfile" ∉
        Dir.Remove ⟨"/existing"⟩ ["/existing", "/existing/newfile", "/other"] :=
  ⟨fstest_c10_dir_from_path.1 ⟨OS.posix, 1000, false⟩ "/existing"
     [PathOp.withFile "newfile" "" []]
     (FSNode.dir (defaultRootDirMode OS.posix) 0 0 [])
     (FSNode.dir (defaultRootDirMode OS.posix) 0 0
       [("newfile", FSNode.file (defaultFileMode OS.posix) 0 0 "")]) rfl,
   fstest_c10_dir_from_path.2.2.2 "/existing" "/existing/newfile"
     ["/existing", "/existing/newfile", "/other"] (by decide)⟩

/-- Witness for C2: the exact-string symlink comparison at a concrete
target, through the equivalence of the claim theorem. -/
theorem fstest_c2_symlink_targets_witness :
    entryEqual (dirEntry.symlink (newResource 1) "/tmp/root-0/j")
      (dirEntry.symlink (newResource 1) "/tmp/root-0/j") = true :=
  (fstest_c2_symlink_targets.2.1 (newResource 1) "/tmp/root-0/j"
    "/tmp/root-0/j").mpr rfl

/-- Witness for C3: the synthetic symlink default differs from the file
default on POSIX, and a concrete Windows symlink node with arbitrary bits
walks to the synthetic default. -/
theorem fstest_c3_default_modes_witness :
    defaultSymlinkMode OS.posix ≠ defaultFileMode OS.posix
    ∧ dirEntryFromNode OS.windows (FSNode.symlink 0o123 7 8 "t") =
        dirEntry.symlink ⟨defaultSymlinkMode OS.windows, 7, 8⟩ "t" :=
  ⟨(fstest_c3_default_modes.2.2.2.2.1 OS.posix).1,
   fstest_c3_default_modes.2.2.2.2.2 OS.windows 0o123 7 8 "t"⟩

/-- Witness for C5: Remove idempotence at a concrete fixture pair and a
concrete set of existing paths. -/
theorem fstest_c5_remove_idempotent_witness :
    File.path ⟨"/tmp/f-0"⟩ ∉ File.Remove ⟨"/tmp/f-0"⟩ ["/tmp/f-0", "/tmp/d-0", "/x"]
    ∧ File.Remove ⟨"/tmp/f-0"⟩ (File.Remove ⟨"/tmp/f-0"⟩ ["/tmp/f-0", "/tmp/d-0", "/x"])
        = File.Remove ⟨"/tmp/f-0"⟩ ["/tmp/f-0", "/tmp/d-0", "/x"]
    ∧ Dir.path ⟨"/tmp/d-0"⟩ ∉ Dir.Remove ⟨"/tmp/d-0"⟩ ["/tmp/f-0", "/tmp/d-0", "/x"]
    ∧ Dir.Remove ⟨"/tmp/d-0"⟩ (Dir.Remove ⟨"/tmp/d-0"⟩ ["/tmp/f-0", "/tmp/d-0", "/x"])
        = Dir.Remove ⟨"/tmp/d-0"⟩ ["/tmp/f-0", "/tmp/d-0", "/x"] :=
  fstest_c5_remove_idempotent ⟨"/tmp/f-0"⟩ ⟨"/tmp/d-0"⟩ ["/tmp/f-0", "/tmp/d-0", "/x"]

end Fstest
